import Mathlib

/-!
Shallow embedding of the `nebulascloud/dagger-mcp-server` repository
(Python), restricted to the parts the verified claims are about:

* `src/demo_mcp_app/openai_mcp_demo.py` — `OptimizedMCPClient.query`:
  the retry loop with conversation-history bookkeeping.
* `src/dagger_mcp_server/testing.py` — `TestRunner.run_tests` with its
  `_run_parallel_tests` / `_run_sequential_tests` / `_execute_test_suite`
  helpers, and the `TestResults` record with its `summary()` formatter.
* `src/dagger_mcp_server/building.py` — the `BuildResults` record and its
  `summary()` formatter.
* `src/dagger_mcp_server/__init__.py` — `DaggerMcpServer._run_quality_checks`
  and the seven per-tool check helpers.

Conventions of the embedding:

* Calls into the external Dagger SDK / OpenAI agent framework are modelled
  by explicit environment functions (`run`, `task`, `env` below): each
  awaited external call is a function of the call's inputs returning either
  a normal value (`Except.ok`) or a raised exception (`Except.error`,
  carrying the exception's message).  Python `await` of a failing call is
  exception propagation in the `Except` monad.
* Python `float` fields hold only values that are written once and
  formatted; no float arithmetic occurs anywhere in the modelled code, so
  floats are embedded as exact rationals (`ℚ`).
* Python dicts (used for the intermediate `results` mapping in
  `testing.py`) are embedded as insertion-ordered association lists;
  subscripting a missing key is a `KeyError`.
* All definitions are structurally recursive so that concrete runs reduce
  inside the kernel (`decide` / `rfl`).
-/

namespace DemoMcpApp

/-- One record of `OptimizedMCPClient._conversation_history`: the dict
`{"question": ..., "response": ..., "response_id": ...}` appended after a
successful query. -/
structure HistoryEntry where
  question : String
  response : String
  response_id : String
deriving DecidableEq, Repr

/-- The fields of `OptimizedMCPClient` that `query` reads or writes:
`_connected`, `_agent` (abstracted to whether an agent object is present,
which is what the truthiness test `not self._agent` observes),
`_conversation_history` and `_last_response_id`. -/
structure ClientState where
  connected : Bool
  hasAgent : Bool
  conversation_history : List HistoryEntry
  last_response_id : Option String
deriving DecidableEq, Repr

/-- Python exceptions distinguished by `query`: the `RuntimeError` it
raises itself when not connected, and an exception coming out of the
awaited agent call (re-raised on the last attempt). -/
inductive PyExn where
  | runtimeError (msg : String)
  | agentError (msg : String)
deriving DecidableEq, Repr

/-- How a call of `query` finishes: a returned response string, a raised
exception, or Python's implicit `None` (falling off the end of the `for`
loop without executing `return` or `raise`). -/
inductive QueryOutcome where
  | ok (response : String)
  | raised (e : PyExn)
  | pyNone
deriving DecidableEq, Repr

/-- Observable events of one `query` call: the start of attempt `i`
(0-based), and a call `asyncio.sleep(seconds)`. -/
inductive Event where
  | attemptEv (i : Nat)
  | sleepEv (seconds : Nat)
deriving DecidableEq, Repr

/-- The body of the `for attempt in range(max_retries)` loop of
`OptimizedMCPClient.query`.  `run i prev` models the awaited
`Runner.run(self._agent, question, previous_response_id=prev)` on attempt
`i`: `.ok (response, response_id)` is a normal return carrying
`result.final_output_as(str)` and `result.last_response_id`, `.error e` a
raised exception with message `e`.  (The `AGENTS_AVAILABLE = False` mock
branch has the same shape, with a fabricated response and uuid.)

The second `Nat` argument is fuel equal to `max_retries - attempt`; it
makes the recursion structural, and `query` below always calls it with
exactly that value, so `fuel = 0` coincides with the loop's exit condition
`attempt ≥ max_retries`. -/
def queryLoop (run : Nat → Option String → Except String (String × String))
    (question : String) (max_retries : Nat) (use_conversation_context : Bool)
    (s : ClientState) : Nat → Nat → QueryOutcome × ClientState × List Event
  | _attempt, 0 => (.pyNone, s, [])
  | attempt, fuel + 1 =>
    let previous_response_id := if use_conversation_context then s.last_response_id else none
    match run attempt previous_response_id with
    | .ok (response, response_id) =>
      (.ok response,
       { s with
          conversation_history := s.conversation_history ++ [⟨question, response, response_id⟩],
          last_response_id := some response_id },
       [.attemptEv attempt])
    | .error e =>
      if attempt = max_retries - 1 then
        (.raised (.agentError e), s, [.attemptEv attempt])
      else
        let rest := queryLoop run question max_retries use_conversation_context s (attempt + 1) fuel
        (rest.1, rest.2.1, .attemptEv attempt :: .sleepEv 1 :: rest.2.2)

/-- `OptimizedMCPClient.query(question, max_retries, use_conversation_context)`
as a function of the client state: returns the outcome, the post-state and
the trace of attempt/sleep events. -/
def query (run : Nat → Option String → Except String (String × String))
    (question : String) (max_retries : Nat) (use_conversation_context : Bool)
    (s : ClientState) : QueryOutcome × ClientState × List Event :=
  if !s.connected || !s.hasAgent then
    (.raised (.runtimeError "Client not connected. Use async with client.connect():"), s, [])
  else
    queryLoop run question max_retries use_conversation_context s 0 max_retries

/-- The event trace of `n` consecutive attempts starting at attempt
`a`, with exactly one 1-second sleep between consecutive attempts and no
sleep after the last one. -/
def retryTrace (a : Nat) : Nat → List Event
  | 0 => []
  | n + 1 => .attemptEv a :: (if n = 0 then [] else .sleepEv 1 :: retryTrace (a + 1) n)

/-- Number of `attemptEv` events in a trace. -/
def attemptCount (tr : List Event) : Nat :=
  (tr.filter fun e => match e with | .attemptEv _ => true | _ => false).length

theorem retryTrace_zero (a : Nat) : retryTrace a 0 = [] := rfl

theorem retryTrace_one (a : Nat) : retryTrace a 1 = [.attemptEv a] := rfl

theorem retryTrace_succ_succ (a n : Nat) :
    retryTrace a (n + 2) = .attemptEv a :: .sleepEv 1 :: retryTrace (a + 1) (n + 1) := rfl

theorem attemptCount_retryTrace (a n : Nat) : attemptCount (retryTrace a n) = n := by
  induction n generalizing a with
  | zero => rfl
  | succ n ih =>
    cases n with
    | zero => rfl
    | succ n =>
      rw [retryTrace_succ_succ]
      simp only [attemptCount, List.filter] at ih ⊢
      have h := ih (a + 1)
      simp only [List.length_cons] at h ⊢
      omega

theorem sleep_mem_retryTrace {n : Nat} :
    ∀ {a secs : Nat}, Event.sleepEv secs ∈ retryTrace a n → secs = 1 := by
  induction n with
  | zero => intro a secs h; simp [retryTrace_zero] at h
  | succ n ih =>
    intro a secs h
    cases n with
    | zero => simp [retryTrace_one] at h
    | succ n =>
      rw [retryTrace_succ_succ] at h
      simp only [List.mem_cons] at h
      rcases h with h | h | h
      · exact absurd h (by simp)
      · exact (Event.sleepEv.inj h)
      · exact ih h

/-- Helper: the successful post-state, appending one history record and
setting the last response id. -/
def succState (s : ClientState) (question response response_id : String) : ClientState :=
  { s with
      conversation_history := s.conversation_history ++ [⟨question, response, response_id⟩],
      last_response_id := some response_id }

/-- Unfolding: a successful attempt returns at once. -/
theorem queryLoop_succ_ok {run : Nat → Option String → Except String (String × String)}
    {q : String} {m : Nat} {ctx : Bool} {s : ClientState} {a fuel : Nat}
    {resp rid : String}
    (hr : run a (if ctx then s.last_response_id else none) = .ok (resp, rid)) :
    queryLoop run q m ctx s a (fuel + 1) =
      (.ok resp, succState s q resp rid, [.attemptEv a]) := by
  simp only [queryLoop, hr, succState]

/-- Unfolding: a failing last attempt (`attempt == max_retries - 1`)
re-raises. -/
theorem queryLoop_succ_err_last {run : Nat → Option String → Except String (String × String)}
    {q : String} {m : Nat} {ctx : Bool} {s : ClientState} {a fuel : Nat} {e : String}
    (hr : run a (if ctx then s.last_response_id else none) = .error e)
    (ha : a = m - 1) :
    queryLoop run q m ctx s a (fuel + 1) = (.raised (.agentError e), s, [.attemptEv a]) := by
  simp only [queryLoop, hr, if_pos ha]

/-- Unfolding: a failing non-last attempt sleeps one second and retries. -/
theorem queryLoop_succ_err {run : Nat → Option String → Except String (String × String)}
    {q : String} {m : Nat} {ctx : Bool} {s : ClientState} {a fuel : Nat} {e : String}
    (hr : run a (if ctx then s.last_response_id else none) = .error e)
    (ha : ¬ a = m - 1) :
    queryLoop run q m ctx s a (fuel + 1) =
      ((queryLoop run q m ctx s (a + 1) fuel).1,
       (queryLoop run q m ctx s (a + 1) fuel).2.1,
       .attemptEv a :: .sleepEv 1 :: (queryLoop run q m ctx s (a + 1) fuel).2.2) := by
  simp only [queryLoop, hr, if_neg ha]

/-- If every attempt from `a` up to `max_retries` fails, the loop performs
exactly the remaining attempts (1-second sleep between consecutive ones),
leaves the state unchanged and re-raises the exception of the last
attempt. -/
theorem queryLoop_allFail (run : Nat → Option String → Except String (String × String))
    (q : String) (m : Nat) (ctx : Bool) (s : ClientState) :
    ∀ fuel a, a + fuel = m → 0 < fuel →
    (∀ i, a ≤ i → i < m →
      (run i (if ctx then s.last_response_id else none)).isOk = false) →
    ∃ e, run (m - 1) (if ctx then s.last_response_id else none) = .error e ∧
      queryLoop run q m ctx s a fuel = (.raised (.agentError e), s, retryTrace a fuel) := by
  intro fuel
  induction fuel with
  | zero => intro a _ h0; exact absurd h0 (by omega)
  | succ f ih =>
    intro a hm _ hfail
    have hEa : ∃ e, run a (if ctx then s.last_response_id else none) = .error e := by
      have := hfail a (le_refl a) (by omega)
      cases hr : run a (if ctx then s.last_response_id else none) with
      | ok v => rw [hr] at this; simp [Except.isOk, Except.toBool] at this
      | error e => exact ⟨e, rfl⟩
    obtain ⟨e0, he0⟩ := hEa
    cases f with
    | zero =>
      have ha : a = m - 1 := by omega
      refine ⟨e0, by rw [← ha]; exact he0, ?_⟩
      rw [queryLoop_succ_err_last he0 ha]
      rfl
    | succ f =>
      have ha : ¬ a = m - 1 := by omega
      obtain ⟨e, he, hrec⟩ := ih (a + 1) (by omega) (by omega)
        (fun i h1 h2 => hfail i (by omega) h2)
      refine ⟨e, he, ?_⟩
      rw [queryLoop_succ_err he0 ha, hrec, retryTrace_succ_succ]

/-- If the attempts from `a` up to (but excluding) `k` fail and attempt
`k < max_retries` succeeds with `(resp, rid)`, the loop returns `resp`
after attempts `a..k`, appends the one history record and sets the last
response id. -/
theorem queryLoop_firstSuccess (run : Nat → Option String → Except String (String × String))
    (q : String) (m : Nat) (ctx : Bool) (s : ClientState) :
    ∀ fuel a k resp rid, a + fuel = m → a ≤ k → k < m →
    (∀ i, a ≤ i → i < k →
      (run i (if ctx then s.last_response_id else none)).isOk = false) →
    run k (if ctx then s.last_response_id else none) = .ok (resp, rid) →
    queryLoop run q m ctx s a fuel =
      (.ok resp, succState s q resp rid, retryTrace a (k - a + 1)) := by
  intro fuel
  induction fuel with
  | zero => intro a k _ _ hm hak hkm; omega
  | succ f ih =>
    intro a k resp rid hm hak hkm hfail hok
    by_cases hEq : a = k
    · subst hEq
      rw [queryLoop_succ_ok hok, Nat.sub_self, retryTrace_one]
    · have haltk : a < k := by omega
      have hEa : ∃ e, run a (if ctx then s.last_response_id else none) = .error e := by
        have := hfail a (le_refl a) haltk
        cases hr : run a (if ctx then s.last_response_id else none) with
        | ok v => rw [hr] at this; simp [Except.isOk, Except.toBool] at this
        | error e => exact ⟨e, rfl⟩
      obtain ⟨e0, he0⟩ := hEa
      have ha : ¬ a = m - 1 := by omega
      have hrec := ih (a + 1) k resp rid (by omega) (by omega) hkm
        (fun i h1 h2 => hfail i (by omega) h2) hok
      have htr : retryTrace a (k - a + 1) =
          .attemptEv a :: .sleepEv 1 :: retryTrace (a + 1) (k - (a + 1) + 1) := by
        have h2 : k - a + 1 = (k - a - 1) + 2 := by omega
        have h3 : k - (a + 1) + 1 = (k - a - 1) + 1 := by omega
        rw [h2, h3, retryTrace_succ_succ]
      rw [queryLoop_succ_err he0 ha, hrec, htr]

/-- Whatever the loop does, either it returned a response and the state
grew by exactly the one matching history record, or it did not return a
response and the state is untouched. -/
theorem queryLoop_state (run : Nat → Option String → Except String (String × String))
    (q : String) (m : Nat) (ctx : Bool) (s : ClientState) :
    ∀ fuel a,
    (∃ resp rid, (queryLoop run q m ctx s a fuel).1 = .ok resp ∧
       (queryLoop run q m ctx s a fuel).2.1 = succState s q resp rid) ∨
    ((∀ r, (queryLoop run q m ctx s a fuel).1 ≠ QueryOutcome.ok r) ∧
       (queryLoop run q m ctx s a fuel).2.1 = s) := by
  intro fuel
  induction fuel with
  | zero =>
    intro a
    exact Or.inr ⟨fun r hr => by simp [queryLoop] at hr, rfl⟩
  | succ f ih =>
    intro a
    cases hr : run a (if ctx then s.last_response_id else none) with
    | ok v =>
      obtain ⟨resp, rid⟩ := v
      rw [queryLoop_succ_ok hr]
      exact Or.inl ⟨resp, rid, rfl, rfl⟩
    | error e =>
      by_cases ha : a = m - 1
      · rw [queryLoop_succ_err_last hr ha]
        exact Or.inr ⟨fun r hrr => by simp at hrr, rfl⟩
      · rw [queryLoop_succ_err hr ha]
        rcases ih (a + 1) with ⟨resp, rid, ho, hs⟩ | ⟨ho, hs⟩
        · exact Or.inl ⟨resp, rid, ho, hs⟩
        · exact Or.inr ⟨ho, hs⟩

theorem query_connected (run : Nat → Option String → Except String (String × String))
    (q : String) (m : Nat) (ctx : Bool) (s : ClientState)
    (hc : s.connected = true) (ha : s.hasAgent = true) :
    query run q m ctx s = queryLoop run q m ctx s 0 m := by
  simp [query, hc, ha]

/-- C1.  For a connected client and `max_retries ≥ 1`,
`OptimizedMCPClient.query` attempts the agent call at most `max_retries`
times, sleeps a fixed 1 second between consecutive failing attempts
(`retryTrace` interleaves exactly one `sleepEv 1` between consecutive
`attemptEv`s and none after the last), returns the response of the first
successful attempt (with the history update), and re-raises the exception
of the last attempt exactly when all `max_retries` attempts fail. -/
theorem c1_query_retry_policy
    (run : Nat → Option String → Except String (String × String))
    (q : String) (m : Nat) (ctx : Bool) (s : ClientState)
    (hc : s.connected = true) (ha : s.hasAgent = true) (hm : 1 ≤ m) :
    (∀ k resp rid, k < m →
      (∀ j, j < k → (run j (if ctx then s.last_response_id else none)).isOk = false) →
      run k (if ctx then s.last_response_id else none) = .ok (resp, rid) →
      query run q m ctx s = (.ok resp, succState s q resp rid, retryTrace 0 (k + 1))) ∧
    ((∀ i, i < m → (run i (if ctx then s.last_response_id else none)).isOk = false) →
      ∃ e, run (m - 1) (if ctx then s.last_response_id else none) = .error e ∧
        query run q m ctx s = (.raised (.agentError e), s, retryTrace 0 m)) ∧
    attemptCount (query run q m ctx s).2.2 ≤ m ∧
    (∀ secs, Event.sleepEv secs ∈ (query run q m ctx s).2.2 → secs = 1) := by
  have hquery := query_connected run q m ctx s hc ha
  have hFirst : ∀ k resp rid, k < m →
      (∀ j, j < k → (run j (if ctx then s.last_response_id else none)).isOk = false) →
      run k (if ctx then s.last_response_id else none) = .ok (resp, rid) →
      query run q m ctx s = (.ok resp, succState s q resp rid, retryTrace 0 (k + 1)) := by
    intro k resp rid hk hprev hok
    rw [hquery]
    have h := queryLoop_firstSuccess run q m ctx s m 0 k resp rid (by omega) (by omega) hk
      (fun i _ h2 => hprev i h2) hok
    simpa using h
  have hAll : (∀ i, i < m → (run i (if ctx then s.last_response_id else none)).isOk = false) →
      ∃ e, run (m - 1) (if ctx then s.last_response_id else none) = .error e ∧
        query run q m ctx s = (.raised (.agentError e), s, retryTrace 0 m) := by
    intro hfail
    obtain ⟨e, he, hq⟩ := queryLoop_allFail run q m ctx s m 0 (by omega) (by omega)
      (fun i _ h2 => hfail i h2)
    exact ⟨e, he, by rw [hquery]; exact hq⟩
  have key : ∃ n, n ≤ m ∧ (query run q m ctx s).2.2 = retryTrace 0 n := by
    by_cases hex : ∃ k, k < m ∧
        (run k (if ctx then s.last_response_id else none)).isOk = true
    · have hk0 := Nat.find_spec hex
      have hfails : ∀ j, j < Nat.find hex →
          (run j (if ctx then s.last_response_id else none)).isOk = false := by
        intro j hj
        have hmin := Nat.find_min hex hj
        cases hB : (run j (if ctx then s.last_response_id else none)).isOk with
        | false => rfl
        | true => exact absurd ⟨by omega, hB⟩ hmin
      have hok : ∃ resp rid, run (Nat.find hex)
          (if ctx then s.last_response_id else none) = .ok (resp, rid) := by
        cases hrk : run (Nat.find hex) (if ctx then s.last_response_id else none) with
        | ok v => exact ⟨v.1, v.2, rfl⟩
        | error e =>
          have := hk0.2
          rw [hrk] at this
          simp [Except.isOk, Except.toBool] at this
      obtain ⟨resp, rid, hrk⟩ := hok
      have h := hFirst (Nat.find hex) resp rid hk0.1 hfails hrk
      exact ⟨Nat.find hex + 1, by omega, by rw [h]⟩
    · have hfail : ∀ i, i < m →
          (run i (if ctx then s.last_response_id else none)).isOk = false := by
        intro i him
        cases hB : (run i (if ctx then s.last_response_id else none)).isOk with
        | false => rfl
        | true => exact absurd ⟨i, him, hB⟩ hex
      obtain ⟨e, _, hq⟩ := hAll hfail
      exact ⟨m, le_refl m, by rw [hq]⟩
  obtain ⟨n, hn, htr⟩ := key
  refine ⟨hFirst, hAll, ?_, ?_⟩
  · rw [htr, attemptCount_retryTrace]; exact hn
  · intro secs hs
    rw [htr] at hs
    exact sleep_mem_retryTrace hs

/-- C2.  A successful `query` appends exactly one history record (the
asked question, the returned response and the new response id) and sets
the last response id to that record's id; a `query` that does not return a
response leaves the client state — history, last response id, connection
flags — unchanged. -/
theorem c2_query_history_bookkeeping
    (run : Nat → Option String → Except String (String × String))
    (q : String) (m : Nat) (ctx : Bool) (s : ClientState)
    (out : QueryOutcome) (s' : ClientState) (tr : List Event)
    (h : query run q m ctx s = (out, s', tr)) :
    (∀ resp, out = .ok resp →
      ∃ rid, s'.conversation_history = s.conversation_history ++ [⟨q, resp, rid⟩] ∧
        s'.conversation_history.length = s.conversation_history.length + 1 ∧
        s'.last_response_id = some rid) ∧
    ((∀ resp, out ≠ QueryOutcome.ok resp) → s' = s) := by
  by_cases hcond : (!s.connected || !s.hasAgent) = true
  · rw [query, if_pos hcond] at h
    rw [Prod.mk.injEq, Prod.mk.injEq] at h
    obtain ⟨h1, h2, _⟩ := h
    constructor
    · intro resp hresp
      rw [← h1] at hresp
      exact absurd hresp (by simp)
    · intro _; exact h2.symm
  · rw [query, if_neg hcond] at h
    have hst := queryLoop_state run q m ctx s m 0
    rw [h] at hst
    dsimp only at hst
    rcases hst with ⟨resp0, rid0, ho, hs⟩ | ⟨ho, hs⟩
    · constructor
      · intro resp hresp
        rw [hresp] at ho
        have : resp0 = resp := (QueryOutcome.ok.inj ho).symm
        subst this
        refine ⟨rid0, ?_, ?_, ?_⟩
        · rw [hs]; rfl
        · rw [hs]; simp [succState]
        · rw [hs]; rfl
      · intro hne
        exact absurd ho (hne resp0)
    · exact ⟨fun resp hresp => absurd (hresp ▸ ho resp) (by simp), fun _ => hs⟩

/-- C8.  With `max_retries = 0` the `for attempt in range(0)` loop body
never runs: no agent call, no sleep, the function falls off the loop and
returns Python's implicit `None`, and the state is untouched. -/
theorem c8_query_zero_retries
    (run : Nat → Option String → Except String (String × String))
    (q : String) (ctx : Bool) (s : ClientState)
    (hc : s.connected = true) (ha : s.hasAgent = true) :
    query run q 0 ctx s = (.pyNone, s, []) := by
  simp [query, hc, ha, queryLoop]

/-- C10.  On a client that is not connected or has no agent, `query`
raises `RuntimeError` immediately: no attempt, no sleep, state
unchanged. -/
theorem c10_query_not_connected
    (run : Nat → Option String → Except String (String × String))
    (q : String) (m : Nat) (ctx : Bool) (s : ClientState)
    (h : s.connected = false ∨ s.hasAgent = false) :
    query run q m ctx s =
      (.raised (.runtimeError "Client not connected. Use async with client.connect():"),
       s, []) := by
  rcases h with h | h <;> simp [query, h]

/-- A demo environment where every agent call succeeds. -/
def demoRun : Nat → Option String → Except String (String × String) :=
  fun _ _ => .ok ("resp", "rid")

/-- A demo environment where every agent call raises. -/
def demoRunFail : Nat → Option String → Except String (String × String) :=
  fun _ _ => .error "boom"

/-- A connected client with empty history. -/
def demoState : ClientState := ⟨true, true, [], none⟩

/-- A disconnected client. -/
def demoStateDisconnected : ClientState := ⟨false, true, [], none⟩

theorem c1_query_retry_policy_witness :
    demoState.connected = true ∧ demoState.hasAgent = true ∧ 1 ≤ 2 ∧
    query demoRun "q" 2 true demoState =
      (.ok "resp", succState demoState "q" "resp" "rid", retryTrace 0 1) :=
  ⟨rfl, rfl, by omega,
    (c1_query_retry_policy demoRun "q" 2 true demoState rfl rfl (by omega)).1
      0 "resp" "rid" (by omega) (fun j hj => absurd hj (Nat.not_lt_zero j)) rfl⟩

theorem c2_query_history_bookkeeping_witness :
    query demoRun "q" 1 true demoState =
      (.ok "resp", succState demoState "q" "resp" "rid", [.attemptEv 0]) ∧
    (∃ rid, (succState demoState "q" "resp" "rid").conversation_history =
        demoState.conversation_history ++ [⟨"q", "resp", rid⟩] ∧
      (succState demoState "q" "resp" "rid").conversation_history.length =
        demoState.conversation_history.length + 1 ∧
      (succState demoState "q" "resp" "rid").last_response_id = some rid) :=
  ⟨rfl, (c2_query_history_bookkeeping demoRun "q" 1 true demoState _ _ _ rfl).1 "resp" rfl⟩

theorem c8_query_zero_retries_witness :
    demoState.connected = true ∧ demoState.hasAgent = true ∧
    query demoRunFail "q" 0 true demoState = (.pyNone, demoState, []) :=
  ⟨rfl, rfl, c8_query_zero_retries demoRunFail "q" true demoState rfl rfl⟩

theorem c10_query_not_connected_witness :
    (demoStateDisconnected.connected = false ∨ demoStateDisconnected.hasAgent = false) ∧
    query demoRunFail "q" 3 true demoStateDisconnected =
      (.raised (.runtimeError "Client not connected. Use async with client.connect():"),
       demoStateDisconnected, []) :=
  ⟨Or.inl rfl,
   c10_query_not_connected demoRunFail "q" 3 true demoStateDisconnected (Or.inl rfl)⟩

end DemoMcpApp

namespace DaggerMcpServer

/-- A value stored in the intermediate Python `results` dict of
`testing.py`: the per-suite flags are booleans, the hardcoded metrics are
floats (embedded as exact rationals). -/
inductive DVal where
  | b (x : Bool)
  | q (x : ℚ)
deriving DecidableEq, Repr

/-- Python truthiness of a stored value (used by `all(results.values())`):
a float is truthy iff nonzero. -/
def truthy : DVal → Bool
  | .b x => x
  | .q x => decide (x ≠ 0)

/-- Reading a `bool`-annotated field out of a fetched dict value.  In every
reachable `results` dict the `*_tests_passed` and `success` keys only ever
hold `.b` values, so the `.q` branch (Python would store the raw value
unchecked; truthiness is the only defensible coercion) is never taken. -/
def DVal.asB : DVal → Bool
  | .b x => x
  | .q x => decide (x ≠ 0)

/-- Reading a `float`-annotated field; the `.b` branch (Python
`float(bool)`) is never taken at the keys `run_tests` reads. -/
def DVal.asQ : DVal → ℚ
  | .q x => x
  | .b x => if x then 1 else 0

/-- Python `dict` assignment `d[k] = v`: replace in place if the key
exists, else append (dicts preserve insertion order). -/
def dset : List (String × DVal) → String → DVal → List (String × DVal)
  | [], k, v => [(k, v)]
  | (k0, v0) :: rest, k, v =>
    if k0 = k then (k, v) :: rest else (k0, v0) :: dset rest k v

/-- Python `d[k]` as an optional lookup. -/
def dget : List (String × DVal) → String → Option DVal
  | [], _ => none
  | (k0, v0) :: rest, k => if k0 = k then some v0 else dget rest k

/-- `d.values()` in insertion order. -/
def dvalues (d : List (String × DVal)) : List DVal := d.map Prod.snd

theorem dget_dset_same (d : List (String × DVal)) (k : String) (v : DVal) :
    dget (dset d k v) k = some v := by
  induction d with
  | nil => simp [dset, dget]
  | cons p rest ih =>
    obtain ⟨k0, v0⟩ := p
    by_cases h : k0 = k
    · simp [dset, dget, h]
    · simp [dset, dget, h, ih]

theorem dget_dset_ne (d : List (String × DVal)) (k k' : String) (v : DVal)
    (h : k ≠ k') : dget (dset d k v) k' = dget d k' := by
  induction d with
  | nil => simp [dset, dget, h]
  | cons p rest ih =>
    obtain ⟨k0, v0⟩ := p
    by_cases h0 : k0 = k
    · subst h0
      simp [dset, dget, h]
    · by_cases h1 : k0 = k'
      · simp [dset, dget, h0, h1, Ne.symm h]
      · simp [dset, dget, h0, h1, ih]

/-- The dict returned by `TestRunner._execute_test_suite` (its `try`
catches every exception from the container exec, so it never raises
itself).  `output` is set on the normal path, `error` on the exception
path; `success` is whether the captured stdout contains `"OK"`. -/
structure SuiteExecResult where
  success : Bool
  output : Option String
  error : Option String
  test_type : String
deriving DecidableEq, Repr

/-- Python `needle in hay` for strings (substring containment). -/
def substr (needle hay : String) : Bool := decide (needle.data <:+: hay.data)

/-- `TestRunner._execute_test_suite(container, test_module, test_type)`.
`stdout test_module` models the awaited
`container.with_exec(["python", "-m", "unittest", f"src.demo_mcp_app.tests.{test_module}", "-v"]).stdout()`:
`.ok` is the captured output, `.error` an exception with message `e`
(converted into a failed result by the `except` clause). -/
def _execute_test_suite (stdout : String → Except String String)
    (test_module : String) (test_type : String) : SuiteExecResult :=
  match stdout test_module with
  | .ok result =>
    { success := substr "OK" result, output := some result, error := none,
      test_type := test_type }
  | .error e =>
    { success := false, output := none, error := some e, test_type := test_type }

/-- The per-suite flag as `_run_parallel_tests` records it: the awaited
task's `success` field, or `False` when awaiting the task raised.
`task test_module` models `await` of the `asyncio.create_task`-wrapped
`_execute_test_suite` call (`.error` = the task raised an exception). -/
def suitePass (task : String → Except String SuiteExecResult) (test_module : String) : Bool :=
  match task test_module with
  | .ok r => r.success
  | .error _ => false

/-- `TestRunner._run_parallel_tests`.  Besides the `results` dict it also
returns the list of test modules dispatched as tasks (in creation order).
`test_filter` and the two thresholds are parameters of the Python method
that its body never reads. -/
def _run_parallel_tests (task : String → Except String SuiteExecResult)
    (test_filter : Option String) (coverage_threshold branch_coverage_threshold : Int) :
    List (String × DVal) × List String :=
  let results : List (String × DVal) := []
  let results := dset results ("unit" ++ "_tests_passed") (.b (suitePass task "test_mcp_client"))
  let results := dset results ("integration" ++ "_tests_passed")
    (.b (suitePass task "test_integration"))
  let results := dset results ("performance" ++ "_tests_passed")
    (.b (suitePass task "test_performance"))
  let results := dset results "success" (.b ((dvalues results).all truthy))
  let results := dset results "coverage_percentage" (.q 85)
  let results := dset results "branch_coverage_percentage" (.q 75)
  let results := dset results "test_duration" (.q 45)
  (results, ["test_mcp_client", "test_integration", "test_performance"])

/-- Python `s.split("_")` for the single-character separator (splits at
every occurrence, keeping empty pieces). -/
def splitChars (sep : Char) : List Char → List (List Char)
  | [] => [[]]
  | c :: rest =>
    let r := splitChars sep rest
    if c = sep then [] :: r
    else (c :: r.headD []) :: r.tail

/-- `test_suite.split("_")[1]` (the sequential runner's key stem; every
suite name has at least two `_`-separated parts, so the Python index `[1]`
never raises here). -/
def splitKey (suite : String) : String :=
  String.mk ((splitChars '_' suite.data).getD 1 [])

/-- One iteration of the `for test_suite in [...]` loop of
`TestRunner._run_sequential_tests`: skip when the (truthy) filter is not a
substring of the suite name, otherwise await the suite and record its flag
under `f"{test_suite.split('_')[1]}_tests_passed"`.  The second component
accumulates the suites actually executed. -/
def seqStep (task : String → Except String SuiteExecResult) (test_filter : Option String)
    (acc : List (String × DVal) × List String) (test_suite : String) :
    Except String (List (String × DVal) × List String) :=
  if (match test_filter with
      | some f => f ≠ "" && !(substr f test_suite)
      | none => false) then
    .ok acc
  else
    match task test_suite with
    | .ok result =>
      .ok (dset acc.1 (splitKey test_suite ++ "_tests_passed") (.b result.success),
           acc.2 ++ [test_suite])
    | .error e => .error e

/-- `TestRunner._run_sequential_tests` (the loop unrolled over its
three-element literal suite list). -/
def _run_sequential_tests (task : String → Except String SuiteExecResult)
    (test_filter : Option String) (coverage_threshold branch_coverage_threshold : Int) :
    Except String (List (String × DVal) × List String) := do
  let acc0 : List (String × DVal) × List String := ([], [])
  let acc1 ← seqStep task test_filter acc0 "test_mcp_client"
  let acc2 ← seqStep task test_filter acc1 "test_integration"
  let acc3 ← seqStep task test_filter acc2 "test_performance"
  let results := acc3.1
  let results := dset results "success" (.b ((dvalues results).all truthy))
  let results := dset results "coverage_percentage" (.q 85)
  let results := dset results "branch_coverage_percentage" (.q 75)
  let results := dset results "test_duration" (.q 120)
  .ok (results, acc3.2)

/-- The `TestResults` record (`@object_type` in `testing.py`). -/
structure TestResults where
  success : Bool
  unit_tests_passed : Bool
  integration_tests_passed : Bool
  performance_tests_passed : Bool
  coverage_percentage : ℚ
  branch_coverage_percentage : ℚ
  test_duration : ℚ
  artifacts_exported : Bool
deriving DecidableEq, Repr

/-- Exceptions `run_tests` can finish with: a `KeyError` from subscripting
the `results` dict, or an exception propagated from awaiting a suite in
sequential mode. -/
inductive PyErr where
  | keyError (key : String)
  | taskError (msg : String)
deriving DecidableEq, Repr

/-- Python `results[k]`: `KeyError` when absent. -/
def dgetE (d : List (String × DVal)) (k : String) : Except PyErr DVal :=
  match dget d k with
  | some v => .ok v
  | none => .error (.keyError k)

/-- `TestRunner.run_tests`.  Container setup and
`_export_test_artifacts` only drive the external Dagger engine (the
latter reads `results` with `.get(...)` defaults only), so they do not
affect the returned value and are not modelled.  The final
`TestResults(...)` constructor call subscripts the `results` dict once
per field, in source order. -/
def run_tests (task : String → Except String SuiteExecResult)
    (test_filter : Option String) (coverage_threshold branch_coverage_threshold : Int)
    (parallel export_artifacts : Bool) :
    Except PyErr (TestResults × List String) := do
  let rd ←
    if parallel then
      Except.ok (_run_parallel_tests task test_filter coverage_threshold branch_coverage_threshold)
    else
      Except.mapError PyErr.taskError
        (_run_sequential_tests task test_filter coverage_threshold branch_coverage_threshold)
  let results := rd.1
  let vSuccess ← dgetE results "success"
  let vUnit ← dgetE results "unit_tests_passed"
  let vIntegration ← dgetE results "integration_tests_passed"
  let vPerformance ← dgetE results "performance_tests_passed"
  let vCoverage ← dgetE results "coverage_percentage"
  let vBranch ← dgetE results "branch_coverage_percentage"
  let vDuration ← dgetE results "test_duration"
  Except.ok
    ({ success := vSuccess.asB, unit_tests_passed := vUnit.asB,
       integration_tests_passed := vIntegration.asB,
       performance_tests_passed := vPerformance.asB,
       coverage_percentage := vCoverage.asQ,
       branch_coverage_percentage := vBranch.asQ,
       test_duration := vDuration.asQ,
       artifacts_exported := export_artifacts }, rd.2)

theorem parallel_results_eq (task : String → Except String SuiteExecResult)
    (test_filter : Option String) (coverage_threshold branch_coverage_threshold : Int) :
    _run_parallel_tests task test_filter coverage_threshold branch_coverage_threshold =
      ([("unit_tests_passed", .b (suitePass task "test_mcp_client")),
        ("integration_tests_passed", .b (suitePass task "test_integration")),
        ("performance_tests_passed", .b (suitePass task "test_performance")),
        ("success", .b (suitePass task "test_mcp_client" &&
          (suitePass task "test_integration" && suitePass task "test_performance"))),
        ("coverage_percentage", .q 85),
        ("branch_coverage_percentage", .q 75),
        ("test_duration", .q 45)],
       ["test_mcp_client", "test_integration", "test_performance"]) := by
  simp [_run_parallel_tests, dset, dvalues, truthy]

theorem run_tests_parallel_eq (task : String → Except String SuiteExecResult)
    (test_filter : Option String) (coverage_threshold branch_coverage_threshold : Int)
    (export_artifacts : Bool) :
    run_tests task test_filter coverage_threshold branch_coverage_threshold true
        export_artifacts =
      Except.ok
        ({ success := suitePass task "test_mcp_client" &&
             (suitePass task "test_integration" && suitePass task "test_performance"),
           unit_tests_passed := suitePass task "test_mcp_client",
           integration_tests_passed := suitePass task "test_integration",
           performance_tests_passed := suitePass task "test_performance",
           coverage_percentage := 85, branch_coverage_percentage := 75,
           test_duration := 45, artifacts_exported := export_artifacts },
         ["test_mcp_client", "test_integration", "test_performance"]) := by
  rw [run_tests, if_pos rfl]
  rw [parallel_results_eq]
  rfl

theorem except_ok_bind {ε α β : Type} (a : α) (f : α → Except ε β) :
    (Except.ok a >>= f : Except ε β) = f a := rfl

theorem except_error_bind {ε α β : Type} (e : ε) (f : α → Except ε β) :
    (Except.error e >>= f : Except ε β) = .error e := rfl

theorem seqStep_isOk (task : String → Except String SuiteExecResult)
    (test_filter : Option String) (acc : List (String × DVal) × List String)
    (suite : String) (h : (task suite).isOk = true) :
    ∃ acc', seqStep task test_filter acc suite = .ok acc' ∧
      ∀ k, splitKey suite ++ "_tests_passed" ≠ k → dget acc'.1 k = dget acc.1 k := by
  unfold seqStep
  by_cases hskip : (match test_filter with
      | some f => (decide (f ≠ "") && !(substr f suite)) = true
      | none => False)
  · rw [if_pos (by cases test_filter <;> simpa using hskip)]
    exact ⟨acc, rfl, fun k _ => rfl⟩
  · rw [if_neg (by cases test_filter <;> simpa using hskip)]
    cases htask : task suite with
    | ok r => exact ⟨_, rfl, fun k hk => dget_dset_ne _ _ _ _ hk⟩
    | error e => rw [htask] at h; simp [Except.isOk, Except.toBool] at h

theorem sequential_no_unit_key (task : String → Except String SuiteExecResult)
    (test_filter : Option String) (coverage_threshold branch_coverage_threshold : Int)
    (h1 : (task "test_mcp_client").isOk = true)
    (h2 : (task "test_integration").isOk = true)
    (h3 : (task "test_performance").isOk = true) :
    ∃ d l, _run_sequential_tests task test_filter coverage_threshold
        branch_coverage_threshold = .ok (d, l) ∧
      dget d "unit_tests_passed" = none ∧
      (∃ v, dget d "success" = some v) := by
  obtain ⟨a1, ha1, hk1⟩ := seqStep_isOk task test_filter ([], []) "test_mcp_client" h1
  obtain ⟨a2, ha2, hk2⟩ := seqStep_isOk task test_filter a1 "test_integration" h2
  obtain ⟨a3, ha3, hk3⟩ := seqStep_isOk task test_filter a2 "test_performance" h3
  refine ⟨dset (dset (dset (dset a3.1 "success" (.b ((dvalues a3.1).all truthy)))
      "coverage_percentage" (.q 85)) "branch_coverage_percentage" (.q 75))
      "test_duration" (.q 120), a3.2, ?_, ?_, ?_⟩
  · simp only [_run_sequential_tests, ha1, ha2, ha3, except_ok_bind]
  · rw [dget_dset_ne _ _ _ _ (by decide), dget_dset_ne _ _ _ _ (by decide),
      dget_dset_ne _ _ _ _ (by decide), dget_dset_ne _ _ _ _ (by decide)]
    rw [hk3 _ (by decide), hk2 _ (by decide), hk1 _ (by decide)]
    rfl
  · exact ⟨_, by
      rw [dget_dset_ne _ _ _ _ (by decide), dget_dset_ne _ _ _ _ (by decide),
        dget_dset_ne _ _ _ _ (by decide), dget_dset_same]⟩

/-- C3.  `_run_parallel_tests` dispatches exactly the three hardcoded
suite tasks (in order `test_mcp_client`, `test_integration`,
`test_performance`); each per-suite flag is the task's `success` field,
or `False` when awaiting the task raised; and the recorded `success`
value is the boolean AND of the three per-suite flags (the metrics are
the hardcoded stubs). -/
theorem c3_parallel_dispatch_and_merge (task : String → Except String SuiteExecResult)
    (test_filter : Option String) (coverage_threshold branch_coverage_threshold : Int) :
    _run_parallel_tests task test_filter coverage_threshold branch_coverage_threshold =
      ([("unit_tests_passed", .b (suitePass task "test_mcp_client")),
        ("integration_tests_passed", .b (suitePass task "test_integration")),
        ("performance_tests_passed", .b (suitePass task "test_performance")),
        ("success", .b (suitePass task "test_mcp_client" &&
          (suitePass task "test_integration" && suitePass task "test_performance"))),
        ("coverage_percentage", .q 85),
        ("branch_coverage_percentage", .q 75),
        ("test_duration", .q 45)],
       ["test_mcp_client", "test_integration", "test_performance"]) ∧
    (∀ tm e, task tm = .error e → suitePass task tm = false) :=
  ⟨parallel_results_eq task test_filter coverage_threshold branch_coverage_threshold,
   fun tm e h => by simp [suitePass, h]⟩

/-- C4.  In parallel mode `run_tests` returns a `TestResults` whose
coverage metrics and duration are the hardcoded stubs `85.0` / `75.0` /
`45.0`, independently of the two threshold parameters.  In sequential
mode, however, `run_tests` never returns at all whenever the three suites
execute normally: `_run_sequential_tests` keys the first suite's flag as
`"mcp_tests_passed"` (from `"test_mcp_client".split("_")[1]`), so the
`TestResults(...)` construction raises `KeyError('unit_tests_passed')` —
the claimed sequential result (`test_duration = 120.0`) is unreachable,
contradicting both the claim and `run_tests`'s own docstring. -/
theorem c4_hardcoded_metrics (task : String → Except String SuiteExecResult)
    (test_filter : Option String) (ct1 bt1 ct2 bt2 : Int) (export_artifacts : Bool)
    (h1 : (task "test_mcp_client").isOk = true)
    (h2 : (task "test_integration").isOk = true)
    (h3 : (task "test_performance").isOk = true) :
    (∃ tr l, run_tests task test_filter ct1 bt1 true export_artifacts = .ok (tr, l) ∧
      tr.coverage_percentage = 85 ∧ tr.branch_coverage_percentage = 75 ∧
      tr.test_duration = 45 ∧ tr.artifacts_exported = export_artifacts) ∧
    run_tests task test_filter ct1 bt1 true export_artifacts =
      run_tests task test_filter ct2 bt2 true export_artifacts ∧
    run_tests task test_filter ct1 bt1 false export_artifacts =
      .error (.keyError "unit_tests_passed") := by
  refine ⟨⟨_, _, run_tests_parallel_eq task test_filter ct1 bt1 export_artifacts,
      rfl, rfl, rfl, rfl⟩, ?_, ?_⟩
  · rw [run_tests_parallel_eq, run_tests_parallel_eq]
  · obtain ⟨d, l, hseq, hunit, v, hsucc⟩ :=
      sequential_no_unit_key task test_filter ct1 bt1 h1 h2 h3
    rw [run_tests, if_neg (by simp), hseq]
    simp only [Except.mapError, except_ok_bind, dgetE, hsucc, hunit, except_error_bind]

/-- C9 (amended).  With `parallel=False` and a nonempty `test_filter`
that is a substring of none of the three suite names, no suite is
executed and the sequential `results` dict records `success = True` (the
`all()` of an empty dict is vacuously true) with the stub metrics — but
`run_tests` then raises `KeyError('unit_tests_passed')` while
constructing `TestResults`, so no `TestResults` object is returned. -/
theorem c9_sequential_unmatched_filter (task : String → Except String SuiteExecResult)
    (ct bt : Int) (export_artifacts : Bool) (f : String)
    (hf : f ≠ "")
    (hm1 : substr f "test_mcp_client" = false)
    (hm2 : substr f "test_integration" = false)
    (hm3 : substr f "test_performance" = false) :
    _run_sequential_tests task (some f) ct bt =
      .ok ([("success", .b true), ("coverage_percentage", .q 85),
            ("branch_coverage_percentage", .q 75), ("test_duration", .q 120)], []) ∧
    run_tests task (some f) ct bt false export_artifacts =
      .error (.keyError "unit_tests_passed") := by
  have hstep : ∀ acc suite, substr f suite = false →
      seqStep task (some f) acc suite = .ok acc := by
    intro acc suite hs
    simp [seqStep, hs, hf]
  have hseq : _run_sequential_tests task (some f) ct bt =
      .ok ([("success", .b true), ("coverage_percentage", .q 85),
            ("branch_coverage_percentage", .q 75), ("test_duration", .q 120)], []) := by
    simp only [_run_sequential_tests, hstep _ _ hm1, hstep _ _ hm2, hstep _ _ hm3,
      except_ok_bind]
    rfl
  refine ⟨hseq, ?_⟩
  rw [run_tests, if_neg (by simp), hseq]
  rfl

/-- An environment in which every suite execution returns an `OK` run. -/
def demoTask : String → Except String SuiteExecResult :=
  fun _ => .ok ⟨true, some "OK", none, "demo"⟩

/-- An environment in which awaiting the integration suite task raises. -/
def demoTaskIntegrationRaises : String → Except String SuiteExecResult :=
  fun tm => if tm = "test_integration" then .error "boom"
            else .ok ⟨true, some "OK", none, "demo"⟩

/-- C9 as frozen is false on the code: with a filter matching no suite,
sequential `run_tests` does not return a `TestResults` with
`success = True`; it raises `KeyError('unit_tests_passed')`. -/
theorem c9_counterexample :
    ¬ ∃ (tr : TestResults) (l : List String),
      run_tests demoTask (some "zzz") 80 70 false true = .ok (tr, l) ∧
      tr.success = true := by
  rintro ⟨tr, l, h, -⟩
  rw [show run_tests demoTask (some "zzz") 80 70 false true =
      .error (.keyError "unit_tests_passed") from rfl] at h
  exact Except.noConfusion h

theorem c3_parallel_dispatch_and_merge_witness :
    demoTaskIntegrationRaises "test_integration" = .error "boom" ∧
    suitePass demoTaskIntegrationRaises "test_integration" = false :=
  ⟨rfl, (c3_parallel_dispatch_and_merge demoTaskIntegrationRaises none 80 70).2
    "test_integration" "boom" rfl⟩

theorem c4_hardcoded_metrics_witness :
    (demoTask "test_mcp_client").isOk = true ∧
    (demoTask "test_integration").isOk = true ∧
    (demoTask "test_performance").isOk = true ∧
    run_tests demoTask none 80 70 false true = .error (.keyError "unit_tests_passed") :=
  ⟨rfl, rfl, rfl,
   (c4_hardcoded_metrics demoTask none 80 70 75 65 true rfl rfl rfl).2.2⟩

theorem c9_sequential_unmatched_filter_witness :
    ("zzz" : String) ≠ "" ∧ substr "zzz" "test_mcp_client" = false ∧
    substr "zzz" "test_integration" = false ∧ substr "zzz" "test_performance" = false ∧
    run_tests demoTask (some "zzz") 80 70 false true =
      .error (.keyError "unit_tests_passed") :=
  ⟨by decide, by decide, by decide, by decide,
   (c9_sequential_unmatched_filter demoTask 80 70 true "zzz" (by decide)
     (by decide) (by decide) (by decide)).2⟩

/-- Outcome of the awaited container exec of one quality-check coroutine
(`DaggerMcpServer._run_<tool>`): a normal captured stdout, a
`dagger.ExecError` (with the optional `stdout` attribute and exit code the
handler reads), or any other exception escaping the coroutine (only
`dagger.ExecError` is caught inside the helpers; anything else is
captured by `asyncio.gather(..., return_exceptions=True)`). -/
inductive CheckOutcome where
  | stdout (out : String)
  | execError (stdoutText : Option String) (exit_code : Int)
  | raised (msg : String)
deriving DecidableEq, Repr

/-- One per-check result dict `{"status": ..., "output": ..., "exit_code": ...}`. -/
structure CheckResult where
  status : String
  output : String
  exit_code : Int
deriving DecidableEq, Repr

/-- Python `e.stdout.strip() if e.stdout else default`: `None` and the
empty string are falsy.  (Lean's `String.trim` strips ASCII whitespace;
Python's `str.strip()` also strips a few rarer Unicode space characters —
immaterial to the claims, which only concern the `status` taxonomy.) -/
def stripOr (s : Option String) (default : String) : String :=
  match s with
  | some t => if t ≠ "" then t.trim else default
  | none => default

/-- `DaggerMcpServer._run_flake8`. -/
def _run_flake8 (o : CheckOutcome) : Except String CheckResult :=
  match o with
  | .stdout _ => .ok { status := "pass", output := "No flake8 issues found", exit_code := 0 }
  | .execError so ec =>
    .ok { status := "fail", output := stripOr so "Flake8 found issues", exit_code := ec }
  | .raised m => .error m

/-- `DaggerMcpServer._run_black_check`. -/
def _run_black_check (o : CheckOutcome) : Except String CheckResult :=
  match o with
  | .stdout _ =>
    .ok { status := "pass", output := "Code formatting is compliant with Black", exit_code := 0 }
  | .execError so ec =>
    .ok { status := "fail", output := stripOr so "Black formatting issues found", exit_code := ec }
  | .raised m => .error m

/-- `DaggerMcpServer._run_mypy`. -/
def _run_mypy (o : CheckOutcome) : Except String CheckResult :=
  match o with
  | .stdout out => .ok { status := "pass", output := out.trim, exit_code := 0 }
  | .execError so ec =>
    .ok { status := "fail", output := stripOr so "MyPy type checking issues found",
          exit_code := ec }
  | .raised m => .error m

/-- `DaggerMcpServer._run_isort_check`. -/
def _run_isort_check (o : CheckOutcome) : Except String CheckResult :=
  match o with
  | .stdout _ =>
    .ok { status := "pass", output := "Import sorting is compliant", exit_code := 0 }
  | .execError so ec =>
    .ok { status := "fail", output := stripOr so "Import sorting issues found", exit_code := ec }
  | .raised m => .error m

/-- `DaggerMcpServer._run_pylint` (an exec failure is recorded as a
`"warning"`, not a `"fail"`). -/
def _run_pylint (o : CheckOutcome) : Except String CheckResult :=
  match o with
  | .stdout out => .ok { status := "pass", output := out.trim, exit_code := 0 }
  | .execError so ec =>
    .ok { status := "warning", output := stripOr so "Pylint analysis completed with issues",
          exit_code := ec }
  | .raised m => .error m

/-- `DaggerMcpServer._run_bandit`. -/
def _run_bandit (o : CheckOutcome) : Except String CheckResult :=
  match o with
  | .stdout out => .ok { status := "pass", output := out.trim, exit_code := 0 }
  | .execError so ec =>
    .ok { status := "fail", output := stripOr so "Security vulnerabilities found",
          exit_code := ec }
  | .raised m => .error m

/-- `DaggerMcpServer._run_safety`. -/
def _run_safety (o : CheckOutcome) : Except String CheckResult :=
  match o with
  | .stdout out => .ok { status := "pass", output := out.trim, exit_code := 0 }
  | .execError so ec =>
    .ok { status := "fail", output := stripOr so "Vulnerable dependencies found",
          exit_code := ec }
  | .raised m => .error m

/-- The `check_names` list zipped against the gathered tasks in
`_run_quality_checks`, as a dispatch from name to helper. -/
def checkFor (name : String) (o : CheckOutcome) : Except String CheckResult :=
  match name with
  | "flake8" => _run_flake8 o
  | "black" => _run_black_check o
  | "mypy" => _run_mypy o
  | "isort" => _run_isort_check o
  | "pylint" => _run_pylint o
  | "bandit" => _run_bandit o
  | _ => _run_safety o

def check_names : List String :=
  ["flake8", "black", "mypy", "isort", "pylint", "bandit", "safety"]

/-- One iteration of the `for name, result in zip(check_names, check_results)`
loop of `_run_quality_checks`: an exception captured by
`asyncio.gather(..., return_exceptions=True)` becomes an `"error"` entry
with the exception's message and exit code 1. -/
def qualityEntry (env : String → CheckOutcome) (name : String) : String × CheckResult :=
  match checkFor name (env name) with
  | .ok r => (name, r)
  | .error msg => (name, { status := "error", output := msg, exit_code := 1 })

/-- `DaggerMcpServer._run_quality_checks`: gather the seven check
coroutines with `return_exceptions=True` (`env name` is the awaited exec
outcome of check `name`).  The function is total: no exception reaches
the caller. -/
def _run_quality_checks (env : String → CheckOutcome) : List (String × CheckResult) :=
  check_names.map (qualityEntry env)

theorem checkFor_ok_status (name : String) (o : CheckOutcome) (r : CheckResult)
    (h : checkFor name o = .ok r) :
    r.status = "pass" ∨ r.status = "fail" ∨ r.status = "warning" := by
  unfold checkFor at h
  split at h <;> cases o <;>
    first
      | exact Except.noConfusion h
      | (apply Or.inl; rw [← Except.ok.inj h]; try rfl
         done)
      | (apply Or.inr; apply Or.inl; rw [← Except.ok.inj h]; try rfl
         done)
      | (apply Or.inr; apply Or.inr; rw [← Except.ok.inj h]; try rfl
         done)

theorem checkFor_raised (name msg : String) :
    checkFor name (.raised msg) = .error msg := by
  unfold checkFor
  split <;> rfl

theorem qualityEntry_fst (env : String → CheckOutcome) (nm : String) :
    (qualityEntry env nm).1 = nm := by
  unfold qualityEntry
  cases checkFor nm (env nm) <;> rfl

theorem qualityEntry_spec (env : String → CheckOutcome) (nm name : String)
    (r : CheckResult) (h : (name, r) = qualityEntry env nm) :
    (r.status = "pass" ∨ r.status = "fail" ∨ r.status = "error" ∨ r.status = "warning") ∧
    (∀ msg, env name = .raised msg →
      r = { status := "error", output := msg, exit_code := 1 }) := by
  unfold qualityEntry at h
  cases hc : checkFor nm (env nm) with
  | ok r0 =>
    rw [hc] at h
    obtain ⟨hn, hr⟩ := Prod.mk.inj h
    constructor
    · rw [hr]
      rcases checkFor_ok_status nm (env nm) r0 hc with h1 | h1 | h1
      · exact Or.inl h1
      · exact Or.inr (Or.inl h1)
      · exact Or.inr (Or.inr (Or.inr h1))
    · intro msg hmsg
      rw [hn] at hmsg
      rw [hmsg, checkFor_raised] at hc
      exact Except.noConfusion hc
  | error msg0 =>
    rw [hc] at h
    obtain ⟨hn, hr⟩ := Prod.mk.inj h
    constructor
    · rw [hr]
      exact Or.inr (Or.inr (Or.inl rfl))
    · intro msg hmsg
      rw [hn] at hmsg
      rw [hmsg, checkFor_raised] at hc
      rw [hr, ← Except.error.inj hc]

/-- C5.  Every per-check entry produced by `_run_quality_checks` carries a
status that is exactly one of `"pass"`, `"fail"`, `"error"` or
`"warning"`; a check whose coroutine raised (anything but the caught
`dagger.ExecError`) is recorded as `"error"` with the exception's message
as output and exit code 1; and nothing propagates — the result always
lists all seven checks, in order. -/
theorem c5_quality_check_status_taxonomy (env : String → CheckOutcome) :
    (∀ name r, (name, r) ∈ _run_quality_checks env →
      (r.status = "pass" ∨ r.status = "fail" ∨ r.status = "error" ∨ r.status = "warning") ∧
      (∀ msg, env name = .raised msg →
        r = { status := "error", output := msg, exit_code := 1 })) ∧
    (_run_quality_checks env).map Prod.fst = check_names := by
  constructor
  · intro name r hmem
    simp only [_run_quality_checks, check_names, List.map_cons, List.map_nil,
      List.mem_cons, List.not_mem_nil, or_false] at hmem
    rcases hmem with h | h | h | h | h | h | h <;>
      exact qualityEntry_spec env _ name r h
  · simp only [_run_quality_checks, check_names, List.map_cons, List.map_nil,
      List.map_map]
    simp [Function.comp_def, qualityEntry_fst]

/-- A check environment: `mypy`'s coroutine raises, everything else
succeeds. -/
def demoCheckEnv : String → CheckOutcome :=
  fun name => if name = "mypy" then .raised "boom" else .stdout "ok"

/-- Decimal digit characters (used to model Python number formatting). -/
def digitChar : Nat → Char
  | 0 => '0'
  | 1 => '1'
  | 2 => '2'
  | 3 => '3'
  | 4 => '4'
  | 5 => '5'
  | 6 => '6'
  | 7 => '7'
  | 8 => '8'
  | 9 => '9'
  | _ => '0'

/-- Decimal digits of `n`, most significant first; `fuel`-structured so
that concrete runs reduce in the kernel (`fuel = n + 1` always
suffices). -/
def natCharsAux : Nat → Nat → List Char
  | 0, _ => []
  | fuel + 1, n =>
    if n < 10 then [digitChar n]
    else natCharsAux fuel (n / 10) ++ [digitChar (n % 10)]

def natChars (n : Nat) : List Char := natCharsAux (n + 1) n

/-- Python `f"{x:.1f}"` on the exact rational `x`: round-half-even at the
first decimal, then print with exactly one digit after the point
(`-0.01` prints as `"-0.0"`, as CPython does). -/
def fmt1 (x : ℚ) : String :=
  let m : Nat := 10 * x.num.natAbs
  let d : Nat := x.den
  let q := m / d
  let r := m % d
  let n := if 2 * r < d then q
           else if d < 2 * r then q + 1
           else if q % 2 = 0 then q else q + 1
  (if x.num < 0 then "-" else "") ++ String.mk (natChars (n / 10)) ++ "." ++
    String.mk [digitChar (n % 10)]

/-- Python `f"{n}"` on an `int`. -/
def intStr (n : ℤ) : String :=
  (if n < 0 then "-" else "") ++ String.mk (natChars n.natAbs)

theorem digitChar_mem (d : Nat) : digitChar d ∈ "-.0123456789".data := by
  unfold digitChar
  split <;> decide

theorem natCharsAux_mem (fuel : Nat) :
    ∀ (n : Nat) (c : Char), c ∈ natCharsAux fuel n → c ∈ "-.0123456789".data := by
  induction fuel with
  | zero => intro n c hc; simp [natCharsAux] at hc
  | succ f ih =>
    intro n c hc
    by_cases h : n < 10
    · simp only [natCharsAux, if_pos h, List.mem_singleton] at hc
      exact hc ▸ digitChar_mem n
    · simp only [natCharsAux, if_neg h, List.mem_append, List.mem_singleton] at hc
      rcases hc with hc | hc
      · exact ih (n / 10) c hc
      · exact hc ▸ digitChar_mem (n % 10)

theorem fmt1_mem (x : ℚ) : ∀ c ∈ (fmt1 x).data, c ∈ "-.0123456789".data := by
  intro c hc
  unfold fmt1 at hc
  simp only [String.data_append] at hc
  rcases List.mem_append.mp hc with hc | hc
  · rcases List.mem_append.mp hc with hc | hc
    · rcases List.mem_append.mp hc with hc | hc
      · rcases hb : (x.num < 0 : Bool)
        all_goals {
          first
            | (rw [if_neg (by simpa using hb)] at hc; simp at hc)
            | (rw [if_pos (by simpa using hb)] at hc
               simp at hc
               rw [hc]; decide)
        }
      · exact natCharsAux_mem _ _ c hc
    · simp at hc
      rw [hc]; decide
  · simp at hc
    rw [hc]
    exact digitChar_mem _

theorem intStr_mem (n : ℤ) : ∀ c ∈ (intStr n).data, c ∈ "-.0123456789".data := by
  intro c hc
  unfold intStr at hc
  simp only [String.data_append] at hc
  rcases List.mem_append.mp hc with hc | hc
  · rcases hb : (n < 0 : Bool)
    all_goals {
      first
        | (rw [if_neg (by simpa using hb)] at hc; simp at hc)
        | (rw [if_pos (by simpa using hb)] at hc
           simp at hc
           rw [hc]; decide)
    }
  · exact natCharsAux_mem _ _ c hc

theorem c5_quality_check_status_taxonomy_witness :
    ("mypy", ({ status := "error", output := "boom", exit_code := 1 } : CheckResult)) ∈
      _run_quality_checks demoCheckEnv ∧
    (("error" : String) = "pass" ∨ ("error" : String) = "fail" ∨
     ("error" : String) = "error" ∨ ("error" : String) = "warning") :=
  ⟨by decide,
   ((c5_quality_check_status_taxonomy demoCheckEnv).1 "mypy"
     { status := "error", output := "boom", exit_code := 1 } (by decide)).1⟩

/-- `'✅' if flag else '❌'` as used by both summary formatters. -/
def checkMark (b : Bool) : String := if b then "✅" else "❌"

/-- `TestResults.summary` (`testing.py`): the f-string rendered as an
explicit concatenation (each `{...}` hole of the source becomes one
non-literal operand). -/
def TestResults.summary (r : TestResults) : String :=
  "\n=== Test Execution Summary ===\nStatus: " ++
    (if r.success then "✅ PASSED" else "❌ FAILED") ++
  "\nUnit Tests: " ++ checkMark r.unit_tests_passed ++
  "\nIntegration Tests: " ++ checkMark r.integration_tests_passed ++
  "\nPerformance Tests: " ++ checkMark r.performance_tests_passed ++
  "\nCoverage: " ++ fmt1 r.coverage_percentage ++ "% (target: 80%)" ++
  "\nBranch Coverage: " ++ fmt1 r.branch_coverage_percentage ++ "% (target: 70%)" ++
  "\nDuration: " ++ fmt1 r.test_duration ++ "s" ++
  "\nArtifacts Exported: " ++ (if r.artifacts_exported then "Yes" else "No") ++ "\n"

/-- The `BuildResults` record (`@object_type` in `building.py`). -/
structure BuildResults where
  success : Bool
  production_image_built : Bool
  packages_generated : Bool
  manifests_created : Bool
  documentation_generated : Bool
  environment : String
  artifact_count : ℤ
  build_duration : ℚ
deriving DecidableEq, Repr

/-- `BuildResults.summary` (`building.py`). -/
def BuildResults.summary (b : BuildResults) : String :=
  "\n=== Build Execution Summary ===\nStatus: " ++
    (if b.success then "✅ SUCCESS" else "❌ FAILED") ++
  "\nEnvironment: " ++ b.environment ++
  "\nProduction Image: " ++ checkMark b.production_image_built ++
  "\nPython Packages: " ++ checkMark b.packages_generated ++
  "\nDeployment Manifests: " ++ checkMark b.manifests_created ++
  "\nDocumentation: " ++ checkMark b.documentation_generated ++
  "\nArtifacts Generated: " ++ intStr b.artifact_count ++
  "\nBuild Duration: " ++ fmt1 b.build_duration ++ "s" ++ "\n"

/-- The `summary()` method call as a state transformer on `self`: its body
only reads fields (builds the status string, then the f-string), so the
translated post-state is the unmodified receiver. -/
def TestResults.summaryRun (r : TestResults) : String × TestResults :=
  (TestResults.summary r, r)

/-- Same for `BuildResults.summary()`. -/
def BuildResults.summaryRun (b : BuildResults) : String × BuildResults :=
  (BuildResults.summary b, b)

/-- C7.  The result records are plain value structs: every field is
supplied at construction (each record equals the constructor applied to
its projections, and nothing else in the repository writes to a
constructed record), and a `summary()` call returns the formatted string
with the receiver unchanged. -/
theorem c7_result_records_immutable :
    (∀ r : TestResults, (TestResults.summaryRun r).2 = r ∧
      (TestResults.summaryRun r).1 = TestResults.summary r ∧
      r = ⟨r.success, r.unit_tests_passed, r.integration_tests_passed,
           r.performance_tests_passed, r.coverage_percentage,
           r.branch_coverage_percentage, r.test_duration, r.artifacts_exported⟩) ∧
    (∀ b : BuildResults, (BuildResults.summaryRun b).2 = b ∧
      (BuildResults.summaryRun b).1 = BuildResults.summary b ∧
      b = ⟨b.success, b.production_image_built, b.packages_generated, b.manifests_created,
           b.documentation_generated, b.environment, b.artifact_count, b.build_duration⟩) :=
  ⟨fun r => ⟨rfl, rfl, rfl⟩, fun b => ⟨rfl, rfl, rfl⟩⟩

theorem not_infix_of_head_not_mem {c : Char} {tl s : List Char} (h : c ∉ s) :
    ¬ (c :: tl) <:+: s :=
  fun hin => h (hin.mem (List.mem_cons_self c tl))

/-- A prefix that avoids the separator `b` cannot reach past it. -/
theorem prefix_drop_sep (b : Char) :
    ∀ (u : List Char) {pat v : List Char}, b ∉ pat → pat <+: (u ++ b :: v) → pat <+: u := by
  intro u
  induction u with
  | nil =>
    intro pat v hb h
    rw [List.nil_append] at h
    rcases List.prefix_cons_iff.mp h with rfl | ⟨t, rfl, -⟩
    · exact List.nil_prefix
    · exact absurd (List.mem_cons_self b t) hb
  | cons x xt ih =>
    intro pat v hb h
    cases pat with
    | nil => exact List.nil_prefix
    | cons p pt =>
      rw [List.cons_append, List.cons_prefix_cons] at h
      obtain ⟨rfl, h2⟩ := h
      exact List.cons_prefix_cons.mpr
        ⟨rfl, ih (fun hm => hb (List.mem_cons_of_mem _ hm)) h2⟩

/-- Splitting containment at a separator character that the pattern does
not contain: an occurrence lies entirely left or entirely right of the
separator. -/
theorem infix_split_sep (b : Char) :
    ∀ (xs : List Char) {pat ys : List Char}, b ∉ pat →
      (pat <:+: (xs ++ b :: ys) ↔ pat <:+: xs ∨ pat <:+: ys) := by
  intro xs
  induction xs with
  | nil =>
    intro pat ys hb
    rw [List.nil_append, List.infix_cons_iff]
    constructor
    · rintro (hp | hi)
      · rcases List.prefix_cons_iff.mp hp with rfl | ⟨t, rfl, -⟩
        · exact Or.inl List.nil_infix
        · exact absurd (List.mem_cons_self b t) hb
      · exact Or.inr hi
    · rintro (h | h)
      · rw [List.infix_nil] at h
        exact Or.inl (h ▸ List.nil_prefix)
      · exact Or.inr h
  | cons x xt ih =>
    intro pat ys hb
    rw [List.cons_append, List.infix_cons_iff, List.infix_cons_iff, ih hb]
    constructor
    · rintro (hp | hi | hy)
      · exact Or.inl (Or.inl (prefix_drop_sep b (x :: xt) hb
          (by rw [List.cons_append]; exact hp)))
      · exact Or.inl (Or.inr hi)
      · exact Or.inr hy
    · rintro ((hp | hi) | hy)
      · refine Or.inl ?_
        have := hp.trans (List.prefix_append (x :: xt) (b :: ys))
        rw [List.cons_append] at this
        exact this
      · exact Or.inr (Or.inl hi)
      · exact Or.inr (Or.inr hy)

/-- An occurrence of a pattern whose head is absent from `seg` cannot
start inside `seg`. -/
theorem not_infix_append_left (c : Char) (tl : List Char) :
    ∀ (seg : List Char) {rest : List Char}, c ∉ seg → ¬ (c :: tl) <:+: rest →
      ¬ (c :: tl) <:+: (seg ++ rest) := by
  intro seg
  induction seg with
  | nil => intro rest _ hr; simpa using hr
  | cons x xs ih =>
    intro rest hc hr
    rw [List.cons_append]
    intro hin
    rcases List.infix_cons_iff.mp hin with hp | hi
    · rcases List.prefix_cons_iff.mp hp with h0 | ⟨t, ht, -⟩
      · exact List.noConfusion h0
      · exact hc ((List.cons.inj ht).1 ▸ List.mem_cons_self ..)
    · exact ih (fun hm => hc (List.mem_cons_of_mem _ hm)) hr hi

/-- Join newline-free chunks with `'\n'` separators (the shape of both
summary strings). -/
def joinNL : List (List Char) → List Char
  | [] => []
  | [c] => c
  | c :: c2 :: rest => c ++ '\n' :: joinNL (c2 :: rest)

theorem infix_joinNL {pat : List Char} (hne : pat ≠ []) (hnl : '\n' ∉ pat) :
    ∀ chunks : List (List Char),
      (pat <:+: joinNL chunks ↔ ∃ c ∈ chunks, pat <:+: c) := by
  intro chunks
  induction chunks with
  | nil => simp [joinNL, List.infix_nil, hne]
  | cons c rest ih =>
    cases rest with
    | nil => simp [joinNL]
    | cons c2 rest2 =>
      rw [show joinNL (c :: c2 :: rest2) = c ++ '\n' :: joinNL (c2 :: rest2) from rfl]
      rw [infix_split_sep '\n' c hnl, ih]
      simp

theorem joinNL_infix_of_mem {pat c : List Char} :
    ∀ {chunks : List (List Char)}, c ∈ chunks → pat <:+: c → pat <:+: joinNL chunks := by
  intro chunks
  induction chunks with
  | nil => intro h; simp at h
  | cons c0 rest ih =>
    intro hmem hpat
    cases rest with
    | nil =>
      rcases List.mem_singleton.mp hmem with rfl
      simpa [joinNL] using hpat
    | cons c2 rest2 =>
      rw [show joinNL (c0 :: c2 :: rest2) = c0 ++ '\n' :: joinNL (c2 :: rest2) from rfl]
      rcases List.mem_cons.mp hmem with rfl | hmem2
      · exact hpat.trans (List.prefix_append c (_)).isInfix
      · exact ((ih hmem2 hpat).trans (List.infix_cons (List.infix_refl _))).trans
          (List.suffix_append c0 _).isInfix

set_option maxRecDepth 4000

/-- `TestResults.summary` is ten newline-separated chunks. -/
theorem testSummary_data (r : TestResults) :
    (TestResults.summary r).data = joinNL
      [[], "=== Test Execution Summary ===".data,
       "Status: ".data ++ (if r.success then "✅ PASSED" else "❌ FAILED").data,
       "Unit Tests: ".data ++ (checkMark r.unit_tests_passed).data,
       "Integration Tests: ".data ++ (checkMark r.integration_tests_passed).data,
       "Performance Tests: ".data ++ (checkMark r.performance_tests_passed).data,
       "Coverage: ".data ++ (fmt1 r.coverage_percentage).data ++ "% (target: 80%)".data,
       "Branch Coverage: ".data ++ (fmt1 r.branch_coverage_percentage).data ++
         "% (target: 70%)".data,
       "Duration: ".data ++ (fmt1 r.test_duration).data ++ "s".data,
       "Artifacts Exported: ".data ++ (if r.artifacts_exported then "Yes" else "No").data,
       []] := by
  simp [TestResults.summary, String.data_append, joinNL, List.append_assoc]

/-- `BuildResults.summary` is ten newline-separated chunks. -/
theorem buildSummary_data (b : BuildResults) :
    (BuildResults.summary b).data = joinNL
      [[], "=== Build Execution Summary ===".data,
       "Status: ".data ++ (if b.success then "✅ SUCCESS" else "❌ FAILED").data,
       "Environment: ".data ++ b.environment.data,
       "Production Image: ".data ++ (checkMark b.production_image_built).data,
       "Python Packages: ".data ++ (checkMark b.packages_generated).data,
       "Deployment Manifests: ".data ++ (checkMark b.manifests_created).data,
       "Documentation: ".data ++ (checkMark b.documentation_generated).data,
       "Artifacts Generated: ".data ++ (intStr b.artifact_count).data,
       "Build Duration: ".data ++ (fmt1 b.build_duration).data ++ "s".data,
       []] := by
  simp [BuildResults.summary, String.data_append, joinNL, List.append_assoc]

theorem fmt1_not_check (x : ℚ) : '✅' ∉ (fmt1 x).data ∧ '❌' ∉ (fmt1 x).data :=
  ⟨fun hx => absurd (fmt1_mem x _ hx) (by decide),
   fun hx => absurd (fmt1_mem x _ hx) (by decide)⟩

theorem intStr_not_check (n : ℤ) : '✅' ∉ (intStr n).data ∧ '❌' ∉ (intStr n).data :=
  ⟨fun hx => absurd (intStr_mem n _ hx) (by decide),
   fun hx => absurd (intStr_mem n _ hx) (by decide)⟩

theorem ts_passed_iff (r : TestResults) :
    "✅ PASSED".data <:+: (TestResults.summary r).data ↔ r.success = true := by
  rw [show "✅ PASSED".data = '✅' :: " PASSED".data from rfl]
  rw [testSummary_data, infix_joinNL (by decide) (by decide)]
  constructor
  · rintro ⟨c, hc, hp⟩
    simp only [List.mem_cons, List.not_mem_nil, or_false] at hc
    rcases hc with rfl | rfl | rfl | rfl | rfl | rfl | rfl | rfl | rfl | rfl | rfl
    · exact absurd hp (by decide)
    · exact absurd hp (by decide)
    · cases hs : r.success
      · rw [hs] at hp
        simp only [Bool.false_eq_true, if_false] at hp
        exact absurd hp (by decide)
      · rfl
    · cases hs : r.unit_tests_passed <;>
        · rw [hs] at hp
          simp only [checkMark] at hp
          exact absurd hp (by decide)
    · cases hs : r.integration_tests_passed <;>
        · rw [hs] at hp
          simp only [checkMark] at hp
          exact absurd hp (by decide)
    · cases hs : r.performance_tests_passed <;>
        · rw [hs] at hp
          simp only [checkMark] at hp
          exact absurd hp (by decide)
    · exact absurd hp (not_infix_of_head_not_mem (by
        simp only [List.mem_append]
        rintro ((h | h) | h)
        · exact absurd h (by decide)
        · exact (fmt1_not_check _).1 h
        · exact absurd h (by decide)))
    · exact absurd hp (not_infix_of_head_not_mem (by
        simp only [List.mem_append]
        rintro ((h | h) | h)
        · exact absurd h (by decide)
        · exact (fmt1_not_check _).1 h
        · exact absurd h (by decide)))
    · exact absurd hp (not_infix_of_head_not_mem (by
        simp only [List.mem_append]
        rintro ((h | h) | h)
        · exact absurd h (by decide)
        · exact (fmt1_not_check _).1 h
        · exact absurd h (by decide)))
    · cases hs : r.artifacts_exported <;>
        · rw [hs] at hp
          simp at hp
          exact absurd hp (by decide)
    · exact absurd hp (by decide)
  · intro hs
    refine ⟨"Status: ".data ++ (if r.success then "✅ PASSED" else "❌ FAILED").data,
      by simp, ?_⟩
    rw [hs]
    simp only [if_true]
    exact (List.suffix_append _ _).isInfix

theorem ts_failed_iff (r : TestResults) :
    "❌ FAILED".data <:+: (TestResults.summary r).data ↔ r.success = false := by
  rw [show "❌ FAILED".data = '❌' :: " FAILED".data from rfl]
  rw [testSummary_data, infix_joinNL (by decide) (by decide)]
  constructor
  · rintro ⟨c, hc, hp⟩
    simp only [List.mem_cons, List.not_mem_nil, or_false] at hc
    rcases hc with rfl | rfl | rfl | rfl | rfl | rfl | rfl | rfl | rfl | rfl | rfl
    · exact absurd hp (by decide)
    · exact absurd hp (by decide)
    · cases hs : r.success
      · rfl
      · rw [hs] at hp
        simp only [if_true] at hp
        exact absurd hp (by decide)
    · cases hs : r.unit_tests_passed <;>
        · rw [hs] at hp
          simp only [checkMark] at hp
          exact absurd hp (by decide)
    · cases hs : r.integration_tests_passed <;>
        · rw [hs] at hp
          simp only [checkMark] at hp
          exact absurd hp (by decide)
    · cases hs : r.performance_tests_passed <;>
        · rw [hs] at hp
          simp only [checkMark] at hp
          exact absurd hp (by decide)
    · exact absurd hp (not_infix_of_head_not_mem (by
        simp only [List.mem_append]
        rintro ((h | h) | h)
        · exact absurd h (by decide)
        · exact (fmt1_not_check _).2 h
        · exact absurd h (by decide)))
    · exact absurd hp (not_infix_of_head_not_mem (by
        simp only [List.mem_append]
        rintro ((h | h) | h)
        · exact absurd h (by decide)
        · exact (fmt1_not_check _).2 h
        · exact absurd h (by decide)))
    · exact absurd hp (not_infix_of_head_not_mem (by
        simp only [List.mem_append]
        rintro ((h | h) | h)
        · exact absurd h (by decide)
        · exact (fmt1_not_check _).2 h
        · exact absurd h (by decide)))
    · cases hs : r.artifacts_exported <;>
        · rw [hs] at hp
          simp at hp
          exact absurd hp (by decide)
    · exact absurd hp (by decide)
  · intro hs
    refine ⟨"Status: ".data ++ (if r.success then "✅ PASSED" else "❌ FAILED").data,
      by simp, ?_⟩
    rw [hs]
    simp only [Bool.false_eq_true, if_false]
    exact (List.suffix_append _ _).isInfix

theorem bs_success_iff (b : BuildResults)
    (hEnv : ¬ "✅ SUCCESS".data <:+: b.environment.data) :
    "✅ SUCCESS".data <:+: (BuildResults.summary b).data ↔ b.success = true := by
  rw [show "✅ SUCCESS".data = '✅' :: " SUCCESS".data from rfl] at hEnv ⊢
  rw [buildSummary_data, infix_joinNL (by decide) (by decide)]
  constructor
  · rintro ⟨c, hc, hp⟩
    simp only [List.mem_cons, List.not_mem_nil, or_false] at hc
    rcases hc with rfl | rfl | rfl | rfl | rfl | rfl | rfl | rfl | rfl | rfl | rfl
    · exact absurd hp (by decide)
    · exact absurd hp (by decide)
    · cases hs : b.success
      · rw [hs] at hp
        simp only [Bool.false_eq_true, if_false] at hp
        exact absurd hp (by decide)
      · rfl
    · exact absurd hp (not_infix_append_left '✅' _ _ (by decide) hEnv)
    · cases hs : b.production_image_built <;>
        · rw [hs] at hp
          simp only [checkMark] at hp
          exact absurd hp (by decide)
    · cases hs : b.packages_generated <;>
        · rw [hs] at hp
          simp only [checkMark] at hp
          exact absurd hp (by decide)
    · cases hs : b.manifests_created <;>
        · rw [hs] at hp
          simp only [checkMark] at hp
          exact absurd hp (by decide)
    · cases hs : b.documentation_generated <;>
        · rw [hs] at hp
          simp only [checkMark] at hp
          exact absurd hp (by decide)
    · exact absurd hp (not_infix_of_head_not_mem (by
        simp only [List.mem_append]
        rintro (h | h)
        · exact absurd h (by decide)
        · exact (intStr_not_check _).1 h))
    · exact absurd hp (not_infix_of_head_not_mem (by
        simp only [List.mem_append]
        rintro ((h | h) | h)
        · exact absurd h (by decide)
        · exact (fmt1_not_check _).1 h
        · exact absurd h (by decide)))
    · exact absurd hp (by decide)
  · intro hs
    refine ⟨"Status: ".data ++ (if b.success then "✅ SUCCESS" else "❌ FAILED").data,
      by simp, ?_⟩
    rw [hs]
    simp only [if_true]
    exact (List.suffix_append _ _).isInfix

theorem bs_failed_iff (b : BuildResults)
    (hEnv : ¬ "❌ FAILED".data <:+: b.environment.data) :
    "❌ FAILED".data <:+: (BuildResults.summary b).data ↔ b.success = false := by
  rw [show "❌ FAILED".data = '❌' :: " FAILED".data from rfl] at hEnv ⊢
  rw [buildSummary_data, infix_joinNL (by decide) (by decide)]
  constructor
  · rintro ⟨c, hc, hp⟩
    simp only [List.mem_cons, List.not_mem_nil, or_false] at hc
    rcases hc with rfl | rfl | rfl | rfl | rfl | rfl | rfl | rfl | rfl | rfl | rfl
    · exact absurd hp (by decide)
    · exact absurd hp (by decide)
    · cases hs : b.success
      · rfl
      · rw [hs] at hp
        simp only [if_true] at hp
        exact absurd hp (by decide)
    · exact absurd hp (not_infix_append_left '❌' _ _ (by decide) hEnv)
    · cases hs : b.production_image_built <;>
        · rw [hs] at hp
          simp only [checkMark] at hp
          exact absurd hp (by decide)
    · cases hs : b.packages_generated <;>
        · rw [hs] at hp
          simp only [checkMark] at hp
          exact absurd hp (by decide)
    · cases hs : b.manifests_created <;>
        · rw [hs] at hp
          simp only [checkMark] at hp
          exact absurd hp (by decide)
    · cases hs : b.documentation_generated <;>
        · rw [hs] at hp
          simp only [checkMark] at hp
          exact absurd hp (by decide)
    · exact absurd hp (not_infix_of_head_not_mem (by
        simp only [List.mem_append]
        rintro (h | h)
        · exact absurd h (by decide)
        · exact (intStr_not_check _).2 h))
    · exact absurd hp (not_infix_of_head_not_mem (by
        simp only [List.mem_append]
        rintro ((h | h) | h)
        · exact absurd h (by decide)
        · exact (fmt1_not_check _).2 h
        · exact absurd h (by decide)))
    · exact absurd hp (by decide)
  · intro hs
    refine ⟨"Status: ".data ++ (if b.success then "✅ SUCCESS" else "❌ FAILED").data,
      by simp, ?_⟩
    rw [hs]
    simp only [Bool.false_eq_true, if_false]
    exact (List.suffix_append _ _).isInfix

/-- A failed build whose free-form `environment` field happens to contain
the success marker verbatim. -/
def brEvil : BuildResults := ⟨false, true, true, true, true, "✅ SUCCESS", 3, 12⟩

/-- C6 as frozen is false on the code: `BuildResults.environment` is an
arbitrary caller-supplied string spliced verbatim into the summary, so a
failed build whose environment contains `"✅ SUCCESS"` produces a summary
containing `"✅ SUCCESS"` even though `success` is false. -/
theorem c6_counterexample :
    ¬ ("✅ SUCCESS".data <:+: (BuildResults.summary brEvil).data ↔
        brEvil.success = true) := by
  decide

/-- C6 (amended).  `TestResults.summary` contains `"✅ PASSED"` iff
`success` and `"❌ FAILED"` iff not, and embeds the three metrics
formatted to one decimal place; `BuildResults.summary` satisfies the
analogous `"✅ SUCCESS"` / `"❌ FAILED"` equivalences provided the
free-form `environment` field does not itself contain the marker in
question (as is the case for the environments the repository uses:
`production`, `staging`, `development`). -/
theorem c6_summary_markers :
    (∀ r : TestResults,
      ("✅ PASSED".data <:+: (TestResults.summary r).data ↔ r.success = true) ∧
      ("❌ FAILED".data <:+: (TestResults.summary r).data ↔ r.success = false) ∧
      (fmt1 r.coverage_percentage).data <:+: (TestResults.summary r).data ∧
      (fmt1 r.branch_coverage_percentage).data <:+: (TestResults.summary r).data ∧
      (fmt1 r.test_duration).data <:+: (TestResults.summary r).data) ∧
    (∀ b : BuildResults,
      ¬ "✅ SUCCESS".data <:+: b.environment.data →
      ¬ "❌ FAILED".data <:+: b.environment.data →
      (("✅ SUCCESS".data <:+: (BuildResults.summary b).data ↔ b.success = true) ∧
       ("❌ FAILED".data <:+: (BuildResults.summary b).data ↔ b.success = false))) := by
  constructor
  · intro r
    refine ⟨ts_passed_iff r, ts_failed_iff r, ?_, ?_, ?_⟩
    · rw [testSummary_data]
      refine joinNL_infix_of_mem ?_
        (List.infix_append "Coverage: ".data _ "% (target: 80%)".data)
      simp
    · rw [testSummary_data]
      refine joinNL_infix_of_mem ?_
        (List.infix_append "Branch Coverage: ".data _ "% (target: 70%)".data)
      simp
    · rw [testSummary_data]
      refine joinNL_infix_of_mem ?_
        (List.infix_append "Duration: ".data _ "s".data)
      simp
  · intro b h1 h2
    exact ⟨bs_success_iff b h1, bs_failed_iff b h2⟩

/-- A passing test-results record and a successful production build with
an ordinary environment name. -/
def trDemo : TestResults := ⟨true, true, true, true, 85, 75, 45, true⟩

def brDemo : BuildResults := ⟨true, true, true, true, true, "production", 3, 12⟩

theorem c6_summary_markers_witness :
    (¬ "✅ SUCCESS".data <:+: brDemo.environment.data) ∧
    (¬ "❌ FAILED".data <:+: brDemo.environment.data) ∧
    ("✅ SUCCESS".data <:+: (BuildResults.summary brDemo).data ↔ brDemo.success = true) ∧
    ("✅ PASSED".data <:+: (TestResults.summary trDemo).data ↔ trDemo.success = true) :=
  ⟨by decide, by decide,
   (c6_summary_markers.2 brDemo (by decide) (by decide)).1,
   (c6_summary_markers.1 trDemo).1⟩

end DaggerMcpServer
